import Mathlib

/-!
Shallow embedding of juliarose/shopping-list-parser (C++), for checking the
natural-language specification against the code.

Sources embedded:
  * src/unit.h, src/unit.cpp        : Unit / System / CountType model, weight conversion
  * src/utils.cpp                   : scanner primitives (startsWith, endsWith, getCharLen, ...)
  * src/shopping_list.cpp           : line parser and total-price calculator
  * src/display.cpp                 : calculateConvertedPerUnit

Modelling conventions:
  * C++ `double` is modelled as `ℚ` (the values that arise are decimal fractions);
    conversion `double -> int64_t` truncates toward zero, modelled by `truncQ`.
  * C++ `int64_t` is modelled as `ℤ` (no claim depends on 64-bit overflow).
  * Strings are modelled as `List Char`.  All grammar tokens are ASCII, and in
    well-formed UTF-8 no byte of a multi-byte character equals an ASCII byte, so
    `startsWith`/`endsWith` on ASCII tokens coincide with codepoint-level
    prefix/suffix tests.
  * Exceptions (`throw std::runtime_error`) are modelled by `Except String`.
-/

namespace ShoppingList

/-- Units of measurement (src/unit.h `enum class Unit`). -/
inductive Unit where
  | Ounce
  | Pound
  | Kilogram
  | Gram
deriving DecidableEq, Repr

/-- System of measurement (src/unit.h `enum class System`). -/
inductive System where
  | Metric
  | Imperial
deriving DecidableEq, Repr

/-- The type of count for an item (src/unit.h `enum class CountType`). -/
inductive CountType where
  | Ounce
  | Pound
  | Kilogram
  | Gram
  | Quantity
deriving DecidableEq, Repr

/-- C++ conversion of a `double` to `int64_t`: truncation toward zero.  For
the reduced fraction `num / den` this is T-division of the numerator by the
denominator (`Int.tdiv` rounds toward zero); `truncQ_eq_floor` and
`truncQ_eq_ceil` below verify the toward-zero reading. -/
def truncQ (q : ℚ) : ℤ := q.num.tdiv (q.den : ℤ)

/-- src/unit.cpp `getUnitSystem`. -/
def getUnitSystem : Unit → System
  | Unit.Ounce => System.Imperial
  | Unit.Pound => System.Imperial
  | Unit.Kilogram => System.Metric
  | Unit.Gram => System.Metric

/-- src/unit.cpp `convertCountTypeToUnit` (returns `nullopt` for Quantity). -/
def convertCountTypeToUnit : CountType → Option Unit
  | CountType.Ounce => some Unit.Ounce
  | CountType.Pound => some Unit.Pound
  | CountType.Kilogram => some Unit.Kilogram
  | CountType.Gram => some Unit.Gram
  | CountType.Quantity => none

/-- src/unit.cpp `convertUnitToCountType`. -/
def convertUnitToCountType : Unit → CountType
  | Unit.Ounce => CountType.Ounce
  | Unit.Pound => CountType.Pound
  | Unit.Kilogram => CountType.Kilogram
  | Unit.Gram => CountType.Gram

/-- src/unit.cpp constant `OZ_PER_LB`. -/
def OZ_PER_LB : ℤ := 16

/-- src/unit.cpp constant `GRAM_PER_KG`. -/
def GRAM_PER_KG : ℤ := 1000

/-- src/unit.cpp `poundsToKilograms`: multiply by the double literal 0.45359237.
The literal is modelled by the decimal fraction it denotes. -/
def LB_TO_KG : ℚ := 45359237 / 100000000

/-- src/unit.cpp `ouncesToPounds`. -/
def ouncesToPounds (ounces : ℚ) : ℚ := ounces / (OZ_PER_LB : ℚ)

/-- src/unit.cpp `poundsToKilograms`. -/
def poundsToKilograms (pounds : ℚ) : ℚ := pounds * LB_TO_KG

/-- src/unit.cpp `kilogramsToPounds`. -/
def kilogramsToPounds (kilograms : ℚ) : ℚ := kilograms / LB_TO_KG

/-- src/unit.cpp `convertWeight`: the full 16-entry conversion table,
entry by entry as in the source. -/
def convertWeight (weight : ℚ) : Unit → Unit → ℚ
  | Unit.Ounce, Unit.Ounce => weight
  | Unit.Ounce, Unit.Pound => ouncesToPounds weight
  | Unit.Ounce, Unit.Kilogram => poundsToKilograms (ouncesToPounds weight)
  | Unit.Ounce, Unit.Gram => poundsToKilograms (ouncesToPounds weight) * (GRAM_PER_KG : ℚ)
  | Unit.Pound, Unit.Ounce => weight * (OZ_PER_LB : ℚ)
  | Unit.Pound, Unit.Pound => weight
  | Unit.Pound, Unit.Kilogram => poundsToKilograms weight
  | Unit.Pound, Unit.Gram => poundsToKilograms weight * (GRAM_PER_KG : ℚ)
  | Unit.Kilogram, Unit.Ounce => kilogramsToPounds weight * (OZ_PER_LB : ℚ)
  | Unit.Kilogram, Unit.Pound => kilogramsToPounds weight
  | Unit.Kilogram, Unit.Kilogram => weight
  | Unit.Kilogram, Unit.Gram => weight * (GRAM_PER_KG : ℚ)
  | Unit.Gram, Unit.Ounce => kilogramsToPounds (weight / (GRAM_PER_KG : ℚ)) * (OZ_PER_LB : ℚ)
  | Unit.Gram, Unit.Pound => kilogramsToPounds (weight / (GRAM_PER_KG : ℚ))
  | Unit.Gram, Unit.Kilogram => weight / (GRAM_PER_KG : ℚ)
  | Unit.Gram, Unit.Gram => weight

/-- src/utils.cpp `isWhole`: `num == (int)num`, i.e. the value equals its
truncation toward zero. -/
def isWhole (num : ℚ) : Bool := num == ((truncQ num : ℤ) : ℚ)

/-- src/utils.cpp `startsWith` (via `rfind(start, 0) == 0`). -/
def startsW (fullString start : List Char) : Bool := start.isPrefixOf fullString

/-- src/utils.cpp `endsWith` (compare the trailing `ending.length()` bytes). -/
def endsW (fullString ending : List Char) : Bool := ending.isSuffixOf fullString

/-- src/utils.cpp `getCharLen`: length of a UTF-8 character from its lead
byte.  For a `Char` (a codepoint) this is the length of its UTF-8 encoding,
which is what the C++ computes when the scanned byte is a lead byte. -/
def getCharLen (c : Char) : ℕ :=
  if c.toNat < 0x80 then 1
  else if c.toNat < 0x800 then 2
  else if c.toNat < 0x10000 then 3
  else 4

/-- Exact numeric value of a run of ASCII digits.  The views the parser
hands to the C conversion functions are always digit runs whose following
byte in the underlying buffer is a non-digit, so the C library stops exactly
at the view boundary; the empty run yields 0 ("no conversion").  `atoiVal`
below models `stringToInt`'s 32-bit `atoi` on top of this value. -/
def natVal (l : List Char) : ℕ :=
  l.foldl (fun a c => a * 10 + (c.toNat - 48)) 0

/-- Two's-complement truncation of a non-negative integer to a 32-bit
`int`. -/
def toInt32 (n : ℕ) : ℤ :=
  let m := n % 4294967296
  if m < 2147483648 then (m : ℤ) else (m : ℤ) - 4294967296

/-- src/utils.cpp `stringToInt` on a digit run: `std::atoi` returns a 32-bit
`int`.  `atoi` behaves as `(int)strtol(...)`; on LP64/glibc `strtol`
saturates at `2^63 - 1` when the run exceeds `long`, and the cast to `int`
truncates to 32 bits (two's complement).  The C standard leaves the
overflowing cases undefined; this models the mainstream behaviour.  The
value is exact (`= natVal l`, see `atoiVal_eq_natVal`) whenever the run has
at most 9 digits. -/
def atoiVal (l : List Char) : ℤ :=
  toInt32 (min (natVal l) 9223372036854775807)

/-- Value denoted by a scanned numeric string: digits, optionally followed by
a single '.' and further digits (the exact shape produced by
`detectDoubleFromFront`'s scan), as parsed by `atof`
(src/utils.cpp `stringToDouble`).  `atof` returns a `double`; the model
keeps the exact rational and reads only the scanned prefix, which agrees
with the C library on every input any theorem below evaluates (the double
rounding of very long runs and `atof`'s willingness to continue past the
view through an exponent suffix are outside that regime). -/
def ratOfNumStr (l : List Char) : ℚ :=
  let w := l.takeWhile Char.isDigit
  match l.drop w.length with
  | '.' :: f => (natVal w : ℚ) + (natVal f : ℚ) / (10 : ℚ) ^ f.length
  | _ => (natVal w : ℚ)

/-- The scanning loop of src/shopping_list.cpp `detectDoubleFromFront`
(lines 35-66): walk forward over the view counting digit characters and at
most one '.', returning the length of the numeric prefix.  `numStrLen` and
`decimalCount` are the loop accumulators.  A multi-byte character is seen via
its lead byte, so `getCharLen ≠ 1` faithfully models the C++ check. -/
def scanNumFront : List Char → ℕ → ℕ → Except String ℕ
  | [], numStrLen, _ => Except.ok numStrLen
  | c :: cs, numStrLen, decimalCount =>
    if getCharLen c ≠ 1 then
      Except.error "Expected string to start with a number"
    else if c.isDigit then
      scanNumFront cs (numStrLen + 1) decimalCount
    else if c = '.' then
      if decimalCount > 0 then
        Except.error "Too many decimal places in number string"
      else if numStrLen = 0 then
        Except.error "Expected string to start with a number"
      else
        scanNumFront cs (numStrLen + 1) (decimalCount + 1)
    else if numStrLen = 0 then
      Except.error "Expected string to start with a number"
    else
      Except.ok numStrLen

/-- src/shopping_list.cpp `detectDoubleFromFront`: extract the number at the
front of the view and advance the view past it.  When the scan accepts zero
characters (only possible on an empty view, since a non-numeric first
character throws), `atof` performs no conversion and yields 0.0.  The C++
error "Failed to parse number as double" is unreachable (`atof` is total). -/
def detectDoubleFromFront (sView : List Char) : Except String (ℚ × List Char) := do
  let numStrLen ← scanNumFront sView 0 0
  Except.ok (ratOfNumStr (sView.take numStrLen), sView.drop numStrLen)

/-- The scanning loop of src/shopping_list.cpp `detectDecimalFromBack`
(lines 101-138), processed here over the reversed view: collect digits into
the fractional length until a '.' is met, then digits into the whole length.
On well-formed UTF-8 the backward scan only ever inspects a multi-byte
character's final continuation byte, for which `getCharLen` returns 1 and
`isdigit` is false, so such a character takes the plain non-digit branch;
the C++ `charLen != 1` throw (which would produce the same message as the
no-digits-yet branch) is unreachable and is merged into the non-digit case. -/
def scanDecBack : List Char → ℕ → ℕ → ℕ → Except String (ℕ × ℕ)
  | [], fractionalLength, wholeLength, _ => Except.ok (fractionalLength, wholeLength)
  | c :: cs, fractionalLength, wholeLength, decimalCount =>
    if c.isDigit then
      if decimalCount = 0 then
        scanDecBack cs (fractionalLength + 1) wholeLength decimalCount
      else if decimalCount = 1 then
        scanDecBack cs fractionalLength (wholeLength + 1) decimalCount
      else
        Except.error "Too many decimal places in price string"
    else if c = '.' then
      if decimalCount > 0 then
        Except.error "Too many decimal places in price string"
      else if fractionalLength = 0 then
        Except.error "Expected string to end with a number"
      else
        scanDecBack cs fractionalLength wholeLength (decimalCount + 1)
    else if fractionalLength = 0 then
      Except.error "Expected string to end with a number"
    else
      Except.ok (fractionalLength, wholeLength)

/-- src/shopping_list.cpp `detectDecimalFromBack`: extract `whole.fractional`
from the back of the view; returns (whole, fractional, precision, advanced
view).  Both digit runs must be non-empty and are converted by
`stringToInt`, i.e. 32-bit `atoi` (`atoiVal`).
`precision = 10 ^ fractionalLength` (unused by the caller). -/
def detectDecimalFromBack (sView : List Char) :
    Except String (ℤ × ℤ × ℤ × List Char) := do
  let (fractionalLength, wholeLength) ← scanDecBack sView.reverse 0 0 0
  if fractionalLength = 0 then
    Except.error "Expected string to end with a number"
  else if wholeLength = 0 then
    Except.error "Expected string to end with a number"
  else
    let fractionalStr := sView.drop (sView.length - fractionalLength)
    let sView1 := sView.take (sView.length - (fractionalLength + 1))
    let wholeStr := sView1.drop (sView1.length - wholeLength)
    let sView2 := sView1.take (sView1.length - wholeLength)
    Except.ok (atoiVal wholeStr, atoiVal fractionalStr,
      ((10 : ℤ) ^ fractionalLength), sView2)

/-- src/shopping_list.cpp `tryExtractIntFromBack`: take the run of trailing
ASCII digits as an integer (via `stringToInt`, i.e. `atoiVal`), advancing
the view; `none` when there are no trailing digits.  (As with the other backward scan, the multi-byte throw is
unreachable on well-formed UTF-8.) -/
def tryExtractIntFromBack (sView : List Char) : Option (ℤ × List Char) :=
  let numStr := (sView.reverse.takeWhile Char.isDigit).reverse
  if numStr.length = 0 then none
  else some (atoiVal numStr, sView.take (sView.length - numStr.length))

/-- A shopping list item (src/shopping_list.h `struct ShoppingListItem`). -/
structure ShoppingListItem where
  name : String
  priceCentsPerUnit : ℤ
  count : ℚ
  countType : CountType
  perUnitCount : ℤ
  perUnitCountType : CountType
deriving DecidableEq, Repr

/-- src/shopping_list.cpp `getShoppingListItemTotalPrice` (lines 267-312).
`int64_t count = shoppingListItem.count` truncates the double toward zero
before the Quantity-branch arithmetic; the weight branch converts the
original (untruncated) double `shoppingListItem.count`.  `priceCents *= ratio`
and `priceCents *= (weight / perUnitWeight)` are int64 *= double, i.e. the
product is computed as a double and truncated back toward zero.  In C++ the
ratio `count / perUnitCount` with `perUnitCount == 0` divides by zero (the
model's `ℚ` division returns 0 there); the "Invalid unit" throw mirrors the
unreachable weight-branch guards. -/
def getShoppingListItemTotalPrice (shoppingListItem : ShoppingListItem) :
    Except String ℤ :=
  let priceCents : ℤ := shoppingListItem.priceCentsPerUnit
  let perUnitCount : ℤ := shoppingListItem.perUnitCount
  let count : ℤ := truncQ shoppingListItem.count
  if shoppingListItem.perUnitCountType = CountType.Quantity ∨
      shoppingListItem.countType = CountType.Quantity then
    if shoppingListItem.perUnitCountType = CountType.Quantity ∧ perUnitCount ≠ 1 then
      Except.ok (truncQ ((priceCents : ℚ) * ((count : ℚ) / (perUnitCount : ℚ))))
    else
      Except.ok (priceCents * count)
  else
    match convertCountTypeToUnit shoppingListItem.countType,
        convertCountTypeToUnit shoppingListItem.perUnitCountType with
    | some u, some perUnitUnit =>
      let weight := convertWeight shoppingListItem.count u perUnitUnit
      let perUnitWeight : ℚ := (perUnitCount : ℚ)
      Except.ok (truncQ ((priceCents : ℚ) * (weight / perUnitWeight)))
    | _, _ => Except.error "Invalid unit"

/-- Lines 328-330 of `parseShoppingListItemStr`: remove one trailing "."
if present. -/
def stripTrailingPeriod (sView : List Char) : List Char :=
  if endsW sView ['.'] then sView.dropLast else sView

/-- Strip one trailing space if present (the "Space is optional" steps of
`parseShoppingListItemStr`, lines 357-359 and 411-413). -/
def stripTrailingSpace (sView : List Char) : List Char :=
  if endsW sView [' '] then sView.dropLast else sView

/-- Lines 332-354 of `parseShoppingListItemStr`: the trailing unit-suffix
token chain, tried in source order "lbs", "lb", "oz", "g", "kg", "ea".
Returns (hasPerUnitCountType, perUnitCountType, advanced view). -/
def detectPerUnitSuffix (sView : List Char) : Bool × CountType × List Char :=
  if endsW sView "lbs".data then (true, CountType.Pound, sView.take (sView.length - 3))
  else if endsW sView "lb".data then (true, CountType.Pound, sView.take (sView.length - 2))
  else if endsW sView "oz".data then (true, CountType.Ounce, sView.take (sView.length - 2))
  else if endsW sView "g".data then (true, CountType.Gram, sView.take (sView.length - 1))
  else if endsW sView "kg".data then (true, CountType.Kilogram, sView.take (sView.length - 2))
  else if endsW sView "ea".data then (true, CountType.Quantity, sView.take (sView.length - 2))
  else (false, CountType.Quantity, sView)

/-- Lines 445-459 of `parseShoppingListItemStr`: the leading unit token
chain, tried in source order "lbs", "lb", "oz", "g", "kg"; `none` when no
token matches. -/
def detectCountTypePrefix (sView : List Char) : Option (CountType × List Char) :=
  if startsW sView "lbs".data then some (CountType.Pound, sView.drop 3)
  else if startsW sView "lb".data then some (CountType.Pound, sView.drop 2)
  else if startsW sView "oz".data then some (CountType.Ounce, sView.drop 2)
  else if startsW sView "g".data then some (CountType.Gram, sView.drop 1)
  else if startsW sView "kg".data then some (CountType.Kilogram, sView.drop 2)
  else none

/-- State after the back-to-front phase of `parseShoppingListItemStr`
(everything up to and including the comma check, lines 320-419). -/
structure BackState where
  rest : List Char
  perUnitCountType : CountType
  perUnitCount : ℤ
  priceCentsPerUnit : ℤ
deriving DecidableEq, Repr

/-- Steps 1-4 of the back-to-front phase (lines 327-376): optional trailing
period, unit-suffix token, optional space, and — when a suffix was found —
the optional per-unit count followed by a mandatory "/".  Returns
(hasPerUnitCountType, perUnitCountType, perUnitCount, advanced view). -/
def parseBackPrePrice (sView : List Char) :
    Except String (Bool × CountType × ℤ × List Char) :=
  let v1 := stripTrailingPeriod sView
  let (hasPerUnitCountType, perUnitCountType, v2) := detectPerUnitSuffix v1
  let v3 := stripTrailingSpace v2
  if hasPerUnitCountType then
    let (perUnitCount, v4) :=
      match tryExtractIntFromBack v3 with
      | some (n, v') => (n, v')
      | none => ((1 : ℤ), v3)
    if endsW v4 ['/'] then
      Except.ok (hasPerUnitCountType, perUnitCountType, perUnitCount, v4.dropLast)
    else
      Except.error "Expected slash before price"
  else
    Except.ok (hasPerUnitCountType, perUnitCountType, 1, v3)

/-- Steps after the price extraction (lines 389-419): mandatory "$", the
quantity-discount form `N/$price` when no unit suffix was present, an
optional space, and the mandatory ",". -/
def parseBackPostPrice (hasPerUnitCountType : Bool) (perUnitCountType : CountType)
    (perUnitCount priceCentsPerUnit : ℤ) (sView : List Char) :
    Except String BackState := do
  let v7 ←
    if endsW sView ['$'] then Except.ok sView.dropLast
    else Except.error "Expected dollar sign before price"
  let (put2, puc2, v8) ←
    if !hasPerUnitCountType && endsW v7 ['/'] then
      match tryExtractIntFromBack v7.dropLast with
      | some (n, v') => Except.ok (CountType.Quantity, n, v')
      | none => Except.error "Expected unit count before price"
    else
      Except.ok (perUnitCountType, perUnitCount, v7)
  let v9 := stripTrailingSpace v8
  if endsW v9 [','] then
    Except.ok ⟨v9.dropLast, put2, puc2, priceCentsPerUnit⟩
  else
    Except.error "Expected comma before price"

/-- The whole back-to-front phase of `parseShoppingListItemStr`
(lines 320-419): token stripping, then the price
`priceCentsPerUnit = dollars * 100 + cents`, then the post-price steps. -/
def parseBack (sView : List Char) : Except String BackState := do
  let (hasPerUnitCountType, perUnitCountType, perUnitCount, v5) ← parseBackPrePrice sView
  let (dollars, cents, _precision, v6) ← detectDecimalFromBack v5
  parseBackPostPrice hasPerUnitCountType perUnitCountType perUnitCount
    (dollars * 100 + cents) v6

/-- Line 422-423 of `parseShoppingListItemStr`: whether a quantity is
expected at the front. -/
def expectsQuantity (st : BackState) : Bool :=
  st.perUnitCountType == CountType.Quantity || st.perUnitCount != 1

/-- The front phase after the count has been obtained (lines 438-491):
optional leading space, leading unit token, and — for a weight unit —
optional "." plus mandatory space; the remaining text is the name.  In the
source the unit chain assigns `countType` and a separate
`countType != Quantity` test guards the period/space handling; since every
leading token is a weight unit and the no-token branch yields Quantity,
folding that test into the match arms is equivalent. -/
def parseAfterCount (st : BackState) (count : ℚ) (sView : List Char) :
    Except String ShoppingListItem :=
  let v1 := if startsW sView [' '] then sView.drop 1 else sView
  match detectCountTypePrefix v1 with
  | some (countType, v2) =>
    let v3 := if startsW v2 ['.'] then v2.drop 1 else v2
    if startsW v3 [' '] then
      Except.ok ⟨String.mk (v3.drop 1), st.priceCentsPerUnit, count, countType,
        st.perUnitCount, st.perUnitCountType⟩
    else
      Except.error "Expected space after the unit of measurement"
  | none =>
    if isWhole count then
      Except.ok ⟨String.mk v1, st.priceCentsPerUnit, count, CountType.Quantity,
        st.perUnitCount, st.perUnitCountType⟩
    else
      Except.error "Expected a unit of measurement after the quantity"

/-- The front phase of `parseShoppingListItemStr` (lines 421-491): extract
the leading count; when extraction throws and a quantity is expected, catch
the error and default the count to 1 with the view unchanged (the C++
`try`/`catch`: `detectDoubleFromFront` only updates the view on success). -/
def parseFront (st : BackState) : Except String ShoppingListItem :=
  match detectDoubleFromFront st.rest with
  | Except.ok (count, v) => parseAfterCount st count v
  | Except.error e =>
    if expectsQuantity st then parseAfterCount st 1 st.rest
    else Except.error e

/-- src/shopping_list.cpp `parseShoppingListItemStr` (lines 320-492). -/
def parseShoppingListItemStr (s : String) : Except String ShoppingListItem :=
  parseBack s.data >>= parseFront

/-- The weight unit corresponding to a weight-bearing `CountType`.  Used only
by the specification-side total-price formula, and only under the guard that
excludes `Quantity`; the `Quantity` arm is never consulted. -/
def weightUnitOf : CountType → Unit
  | CountType.Ounce => Unit.Ounce
  | CountType.Pound => Unit.Pound
  | CountType.Kilogram => Unit.Kilogram
  | CountType.Gram => Unit.Gram
  | CountType.Quantity => Unit.Pound

/-- Specification-side total-price formula, written from the words of the
amended claim C2 (to be compared against `getShoppingListItemTotalPrice`):
the count is first truncated toward zero to an integer; if `countType` or
`perUnitCountType` is Quantity then the total is
`trunc (priceCentsPerUnit * (truncCount / perUnitCount))` when
`perUnitCountType` is Quantity with `perUnitCount ≠ 1`, and
`priceCentsPerUnit * truncCount` otherwise; otherwise both sides are weight
units and the total is `trunc (priceCentsPerUnit * (convertedWeight /
perUnitCount))` where `convertedWeight` converts the untruncated count into
`perUnitCountType`'s unit. -/
def totalPriceCentsSpec (item : ShoppingListItem) : ℤ :=
  let truncCount : ℤ := truncQ item.count
  if item.countType = CountType.Quantity ∨ item.perUnitCountType = CountType.Quantity then
    if item.perUnitCountType = CountType.Quantity ∧ item.perUnitCount ≠ 1 then
      truncQ ((item.priceCentsPerUnit : ℚ) * ((truncCount : ℚ) / (item.perUnitCount : ℚ)))
    else
      item.priceCentsPerUnit * truncCount
  else
    let convertedWeight :=
      convertWeight item.count (weightUnitOf item.countType) (weightUnitOf item.perUnitCountType)
    truncQ ((item.priceCentsPerUnit : ℚ) * (convertedWeight / (item.perUnitCount : ℚ)))

/-- src/display.cpp `struct ConvertedPerUnit`. -/
structure ConvertedPerUnit where
  perUnitCount : ℚ
  perUnitUnit : Unit
  priceCentsPerUnit : ℤ
deriving DecidableEq, Repr

/-- src/display.cpp `calculateConvertedPerUnit` (lines 68-111).  When the
unit's system differs from the preferred unit's system, the target unit is
overwritten with the cross-system partner (Kilogram for Ounce/Pound, Pound
for Kilogram/Gram); `newPriceCentsPerUnit` is the int64 cast (truncation) of
`priceCentsPerUnit * perUnitCountRatio`. -/
def calculateConvertedPerUnit (perUnitCount : ℤ) (unit : Unit)
    (priceCentsPerUnit : ℤ) (preferredUnit : Unit) : ConvertedPerUnit :=
  let system := getUnitSystem unit
  let preferredSystem := getUnitSystem preferredUnit
  let preferredPerUnitCount : ℚ := (perUnitCount : ℚ)
  if system = preferredSystem then
    ⟨preferredPerUnitCount, unit, priceCentsPerUnit⟩
  else
    let target : Unit :=
      match unit with
      | Unit.Ounce => Unit.Kilogram
      | Unit.Pound => Unit.Kilogram
      | Unit.Kilogram => Unit.Pound
      | Unit.Gram => Unit.Pound
    let convertedUnitCount := convertWeight (perUnitCount : ℚ) unit target
    if perUnitCount > 1 then
      ⟨convertedUnitCount, target, priceCentsPerUnit⟩
    else
      let perUnitCountRatio := preferredPerUnitCount / convertedUnitCount
      ⟨preferredPerUnitCount, target, truncQ ((priceCentsPerUnit : ℚ) * perUnitCountRatio)⟩

/-! ### Helper lemmas -/

/-- `truncQ` agrees with the floor on non-negative rationals: the C++ cast
rounds toward zero, i.e. down for non-negative values. -/
theorem truncQ_eq_floor (q : ℚ) (h : 0 ≤ q) : truncQ q = ⌊q⌋ := by
  rw [truncQ, Rat.floor_def, Int.tdiv_eq_ediv (Rat.num_nonneg.mpr h) (by positivity)]

/-- `truncQ` agrees with the ceiling on negative rationals: the C++ cast
rounds toward zero, i.e. up for negative values. -/
theorem truncQ_eq_ceil (q : ℚ) (h : q < 0) : truncQ q = ⌈q⌉ := by
  have h1 : truncQ q = -truncQ (-q) := by
    rw [truncQ, truncQ, Rat.neg_num, Rat.neg_den, Int.neg_tdiv, neg_neg]
  rw [h1, truncQ_eq_floor (-q) (by linarith), Int.floor_neg, neg_neg]

/-- A digit character's value is between 0 and 9. -/
theorem digit_sub_le {c : Char} (h : c.isDigit = true) : c.toNat - 48 ≤ 9 := by
  simp [Char.isDigit] at h
  obtain ⟨h1, h2⟩ := h
  have h3 : c.toNat ≤ 57 := by
    simp [UInt32.le_def, BitVec.le_def] at h2
    simpa [Char.toNat, UInt32.toNat] using h2
  omega

/-- Bound on the digit-accumulating fold underlying `natVal`. -/
theorem natVal_go_lt (l : List Char) (a : ℕ) (hd : ∀ c ∈ l, c.isDigit = true) :
    l.foldl (fun a c => a * 10 + (c.toNat - 48)) a < (a + 1) * 10 ^ l.length := by
  induction l generalizing a with
  | nil => simp
  | cons c cs ih =>
    have hc : c.toNat - 48 ≤ 9 := digit_sub_le (hd c (List.mem_cons_self c cs))
    have h1 := ih (a * 10 + (c.toNat - 48)) (fun x hx => hd x (List.mem_cons_of_mem c hx))
    simp only [List.foldl_cons, List.length_cons]
    calc List.foldl (fun a c => a * 10 + (c.toNat - 48)) (a * 10 + (c.toNat - 48)) cs
        < (a * 10 + (c.toNat - 48) + 1) * 10 ^ cs.length := h1
      _ ≤ ((a + 1) * 10) * 10 ^ cs.length :=
          Nat.mul_le_mul_right _ (by omega)
      _ = (a + 1) * 10 ^ (cs.length + 1) := by ring

/-- A run of `n` digits denotes a value below `10 ^ n`. -/
theorem natVal_lt (l : List Char) (hd : ∀ c ∈ l, c.isDigit = true) :
    natVal l < 10 ^ l.length := by
  have := natVal_go_lt l 0 hd
  simpa [natVal] using this

/-- `atoi` is exact on digit runs of at most 9 digits (the value fits a
32-bit `int`). -/
theorem atoiVal_eq_natVal (l : List Char) (hd : ∀ c ∈ l, c.isDigit = true)
    (hlen : l.length ≤ 9) : atoiVal l = (natVal l : ℤ) := by
  have h1 : natVal l < 1000000000 := by
    calc natVal l < 10 ^ l.length := natVal_lt l hd
      _ ≤ 10 ^ 9 := Nat.pow_le_pow_right (by norm_num) hlen
      _ = 1000000000 := by norm_num
  rw [atoiVal, toInt32]
  rw [Nat.min_eq_left (by omega)]
  simp only [Nat.mod_eq_of_lt (by omega : natVal l < 4294967296)]
  rw [if_pos (by omega)]

/-- A non-empty suffix determines the last element. -/
theorem getLast?_of_suffix {l₁ l₂ : List Char} (h : l₁ <:+ l₂) (hne : l₁ ≠ []) :
    l₂.getLast? = l₁.getLast? := by
  obtain ⟨t, rfl⟩ := h
  exact List.getLast?_append_of_ne_nil t hne

/-- `endsWith` is false when the last characters disagree. -/
theorem endsW_false_of_last {v t : List Char} (ht : t ≠ []) (h : v.getLast? ≠ t.getLast?) :
    endsW v t = false := by
  have hns : ¬ (t <:+ v) := fun hs => h (getLast?_of_suffix hs ht)
  rw [endsW, ← Bool.not_eq_true, List.isSuffixOf_iff_suffix]
  exact hns

/-- `endsWith` holds for a literal appended suffix. -/
theorem endsW_append_self (l t : List Char) : endsW (l ++ t) t = true := by
  rw [endsW, List.isSuffixOf_iff_suffix]
  exact List.suffix_append l t

/-- Any successful result of `parseAfterCount` carries the given count and
the `BackState`'s price and per-unit fields unchanged. -/
theorem parseAfterCount_fields (st : BackState) (c : ℚ) (v : List Char) :
    (∃ e, parseAfterCount st c v = Except.error e) ∨
    (∃ nm ct, parseAfterCount st c v =
      Except.ok ⟨nm, st.priceCentsPerUnit, c, ct, st.perUnitCount, st.perUnitCountType⟩) := by
  simp only [parseAfterCount]
  repeat' split
  all_goals first
  | exact Or.inr ⟨_, _, rfl⟩
  | exact Or.inl ⟨_, rfl⟩

/-- A successfully parsed item records exactly the count that the front
phase was entered with. -/
theorem parseAfterCount_count {st : BackState} {c : ℚ} {v : List Char}
    {item : ShoppingListItem} (h : parseAfterCount st c v = Except.ok item) :
    item.count = c := by
  rcases parseAfterCount_fields st c v with ⟨e, he⟩ | ⟨nm, ct, hk⟩
  · rw [he] at h; cases h
  · rw [hk] at h; cases h; rfl

/-- A successfully parsed item records the `BackState`'s price. -/
theorem parseAfterCount_price {st : BackState} {c : ℚ} {v : List Char}
    {item : ShoppingListItem} (h : parseAfterCount st c v = Except.ok item) :
    item.priceCentsPerUnit = st.priceCentsPerUnit := by
  rcases parseAfterCount_fields st c v with ⟨e, he⟩ | ⟨nm, ct, hk⟩
  · rw [he] at h; cases h
  · rw [hk] at h; cases h; rfl

/-- The front phase never changes the price extracted by the back phase. -/
theorem parseFront_price {st : BackState} {item : ShoppingListItem}
    (h : parseFront st = Except.ok item) :
    item.priceCentsPerUnit = st.priceCentsPerUnit := by
  unfold parseFront at h
  split at h
  · exact parseAfterCount_price h
  · split at h
    · exact parseAfterCount_price h
    · simp at h

/-- The post-price steps return the price they were given. -/
theorem parseBackPostPrice_price {hasPut : Bool} {put : CountType} {puc price : ℤ}
    {v : List Char} {st : BackState}
    (h : parseBackPostPrice hasPut put puc price v = Except.ok st) :
    st.priceCentsPerUnit = price := by
  unfold parseBackPostPrice at h
  simp only [Bind.bind, Except.bind] at h
  repeat' split at h
  all_goals first
  | (cases h; rfl)
  | simp at h

/-- For every accepted line, the item's price is `whole * 100 + fractional`
for the whole/fractional parts extracted by `detectDecimalFromBack` at the
view the pipeline reaches it with. -/
theorem parse_price_pipeline (s : String) (item : ShoppingListItem)
    (h : parseShoppingListItemStr s = Except.ok item) :
    ∃ hasPut put puc v5 w f p v6,
      parseBackPrePrice s.data = Except.ok (hasPut, put, puc, v5) ∧
      detectDecimalFromBack v5 = Except.ok (w, f, p, v6) ∧
      item.priceCentsPerUnit = w * 100 + f := by
  unfold parseShoppingListItemStr at h
  cases hb : parseBack s.data with
  | error e => rw [hb] at h; cases h
  | ok st =>
    rw [hb] at h
    replace h : parseFront st = Except.ok item := h
    unfold parseBack at hb
    cases hpp : parseBackPrePrice s.data with
    | error e => rw [hpp] at hb; cases hb
    | ok q =>
      obtain ⟨hasPut, put, puc, v5⟩ := q
      rw [hpp] at hb
      simp only [Bind.bind, Except.bind] at hb
      cases hd : detectDecimalFromBack v5 with
      | error e => rw [hd] at hb; cases hb
      | ok r =>
        obtain ⟨w, f, p, v6⟩ := r
        rw [hd] at hb
        replace hb : parseBackPostPrice hasPut put puc (w * 100 + f) v6 = Except.ok st := hb
        exact ⟨hasPut, put, puc, v5, w, f, p, v6, rfl, hd, by
          rw [parseFront_price h, parseBackPostPrice_price hb]⟩

/-- Scanning a run of digits in the pre-decimal phase adds its length to the
fractional length. -/
theorem scanDecBack_digits0 (d rest : List Char) (fLen wLen : ℕ)
    (hd : ∀ c ∈ d, c.isDigit = true) :
    scanDecBack (d ++ rest) fLen wLen 0 = scanDecBack rest (fLen + d.length) wLen 0 := by
  induction d generalizing fLen with
  | nil => simp
  | cons c cs ih =>
    have hc : c.isDigit = true := hd c (List.mem_cons_self c cs)
    rw [List.cons_append, scanDecBack]
    simp only [hc, if_true, if_pos rfl]
    rw [ih (fLen + 1) (fun x hx => hd x (List.mem_cons_of_mem c hx))]
    congr 1
    simp [List.length_cons]
    omega

/-- Scanning a run of digits in the post-decimal phase adds its length to
the whole length. -/
theorem scanDecBack_digits1 (d rest : List Char) (fLen wLen : ℕ)
    (hd : ∀ c ∈ d, c.isDigit = true) :
    scanDecBack (d ++ rest) fLen wLen 1 = scanDecBack rest fLen (wLen + d.length) 1 := by
  induction d generalizing wLen with
  | nil => simp
  | cons c cs ih =>
    have hc : c.isDigit = true := hd c (List.mem_cons_self c cs)
    rw [List.cons_append, scanDecBack]
    simp only [hc, if_true, if_neg (by decide : ¬(1 = 0)), if_pos rfl]
    rw [ih (wLen + 1) (fun x hx => hd x (List.mem_cons_of_mem c hx))]
    congr 1
    simp [List.length_cons]
    omega

/-- The first '.' switches the scan from the fractional to the whole phase
(provided at least one fractional digit was seen). -/
theorem scanDecBack_dot (rest : List Char) (fLen wLen : ℕ) (hf : fLen ≠ 0) :
    scanDecBack ('.' :: rest) fLen wLen 0 = scanDecBack rest fLen wLen 1 := by
  rw [scanDecBack]
  simp [hf]

/-- The scan stops (successfully) at the front of the view or at a character
that is neither a digit nor '.'. -/
theorem scanDecBack_stop (preRev : List Char) (fLen wLen : ℕ) (hf : fLen ≠ 0)
    (hpre : preRev = [] ∨ ∃ c cs, preRev = c :: cs ∧ c.isDigit = false ∧ c ≠ '.') :
    scanDecBack preRev fLen wLen 1 = Except.ok (fLen, wLen) := by
  rcases hpre with rfl | ⟨c, cs, rfl, hcd, hcdot⟩
  · rfl
  · rw [scanDecBack]
    simp [hcd, hcdot, hf]

/-- Full characterisation of the backward scan on a view that ends with
`whole-digits '.' fractional-digits`. -/
theorem scanDecBack_main (pre w f : List Char)
    (hw : ∀ c ∈ w, c.isDigit = true) (hf : ∀ c ∈ f, c.isDigit = true) (hfne : f ≠ [])
    (hpre : pre = [] ∨ ∃ c, pre.getLast? = some c ∧ c.isDigit = false ∧ c ≠ '.') :
    scanDecBack (pre ++ w ++ '.' :: f).reverse 0 0 0 = Except.ok (f.length, w.length) := by
  have hrev : (pre ++ w ++ '.' :: f).reverse = f.reverse ++ '.' :: (w.reverse ++ pre.reverse) := by
    simp
  rw [hrev,
    scanDecBack_digits0 f.reverse _ 0 0 (fun c hc => hf c (List.mem_reverse.mp hc)),
    scanDecBack_dot _ _ _ (by simpa using hfne),
    scanDecBack_digits1 w.reverse _ _ 0 (fun c hc => hw c (List.mem_reverse.mp hc)),
    scanDecBack_stop _ _ _ (by simpa using hfne)]
  · simp
  · rcases hpre with rfl | ⟨c, hlast, hcd, hcdot⟩
    · left; simp
    · right
      rw [List.getLast?_eq_head?_reverse] at hlast
      cases hprev : pre.reverse with
      | nil => rw [hprev] at hlast; cases hlast
      | cons c' cs =>
        rw [hprev] at hlast
        injection hlast with hc'
        exact ⟨c', cs, rfl, by rw [hc']; exact hcd, by rw [hc']; exact hcdot⟩

/-- `detectDecimalFromBack` on a view ending `whole '.' fractional` (both
digit runs non-empty, preceded by nothing or by a non-digit non-dot
character) returns the `atoi` values of the two digit runs — whatever their
length — along with `10 ^ fractionalLength` and the view shortened past the
whole part. -/
theorem detectDecimalFromBack_digits (pre w f : List Char)
    (hw : ∀ c ∈ w, c.isDigit = true) (hf : ∀ c ∈ f, c.isDigit = true)
    (hwne : w ≠ []) (hfne : f ≠ [])
    (hpre : pre = [] ∨ ∃ c, pre.getLast? = some c ∧ c.isDigit = false ∧ c ≠ '.') :
    detectDecimalFromBack (pre ++ w ++ '.' :: f) =
      Except.ok (atoiVal w, atoiVal f, (10 : ℤ) ^ f.length, pre) := by
  have hfl : f.length ≠ 0 := by simpa using hfne
  have hwl : w.length ≠ 0 := by simpa using hwne
  unfold detectDecimalFromBack
  rw [scanDecBack_main pre w f hw hf hfne hpre]
  simp only [Bind.bind, Except.bind, hfl, hwl, if_neg, if_false]
  have hlen : (pre ++ w ++ '.' :: f).length = pre.length + w.length + 1 + f.length := by
    simp; omega
  have hfr : (pre ++ w ++ '.' :: f).drop ((pre ++ w ++ '.' :: f).length - f.length) = f := by
    have hv : pre ++ w ++ '.' :: f = (pre ++ w ++ ['.']) ++ f := by simp
    rw [hv]
    apply List.drop_left'
    simp
    omega
  have hv1 : (pre ++ w ++ '.' :: f).take ((pre ++ w ++ '.' :: f).length - (f.length + 1)) =
      pre ++ w := by
    have hv : pre ++ w ++ '.' :: f = (pre ++ w) ++ ('.' :: f) := by simp
    rw [hv]
    apply List.take_left'
    simp [hlen]
    omega
  rw [hfr, hv1]
  have hwh : (pre ++ w).drop ((pre ++ w).length - w.length) = w := by
    apply List.drop_left'
    simp
  have hv2 : (pre ++ w).take ((pre ++ w).length - w.length) = pre := by
    apply List.take_left'
    simp
  rw [hwh, hv2]

/-- A view ending in '.' (no fractional digits) is rejected. -/
theorem detectDecimalFromBack_no_fractional (v : List Char) :
    detectDecimalFromBack (v ++ ['.']) = Except.error "Expected string to end with a number" := by
  unfold detectDecimalFromBack
  rw [show (v ++ ['.']).reverse = '.' :: v.reverse from by simp]
  rw [scanDecBack]
  simp [Bind.bind, Except.bind]

/-- A view whose '.' is not preceded by a digit (empty whole run) is
rejected. -/
theorem detectDecimalFromBack_no_whole (pre f : List Char)
    (hf : ∀ c ∈ f, c.isDigit = true) (hfne : f ≠ [])
    (hpre : pre = [] ∨ ∃ c, pre.getLast? = some c ∧ c.isDigit = false ∧ c ≠ '.') :
    detectDecimalFromBack (pre ++ '.' :: f) =
      Except.error "Expected string to end with a number" := by
  have hscan : scanDecBack (pre ++ '.' :: f).reverse 0 0 0 = Except.ok (f.length, 0) := by
    have h0 : scanDecBack (pre ++ [] ++ '.' :: f).reverse 0 0 0 = Except.ok (f.length, 0) := by
      have := scanDecBack_main pre [] f (by simp) hf hfne hpre
      simpa using this
    simpa using h0
  unfold detectDecimalFromBack
  rw [hscan]
  have hfl : f.length ≠ 0 := by simpa using hfne
  simp [Bind.bind, Except.bind, hfl]

/-- A second '.' met by the backward scan is rejected. -/
theorem detectDecimalFromBack_two_dots (pre w f : List Char)
    (hw : ∀ c ∈ w, c.isDigit = true) (hf : ∀ c ∈ f, c.isDigit = true) (hfne : f ≠ []) :
    detectDecimalFromBack (pre ++ '.' :: w ++ '.' :: f) =
      Except.error "Too many decimal places in price string" := by
  unfold detectDecimalFromBack
  have hrev : (pre ++ '.' :: w ++ '.' :: f).reverse =
      f.reverse ++ '.' :: (w.reverse ++ '.' :: pre.reverse) := by simp
  rw [hrev,
    scanDecBack_digits0 f.reverse _ 0 0 (fun c hc => hf c (List.mem_reverse.mp hc)),
    scanDecBack_dot _ _ _ (by simpa using hfne),
    scanDecBack_digits1 w.reverse _ _ 0 (fun c hc => hw c (List.mem_reverse.mp hc))]
  rw [scanDecBack]
  simp [Bind.bind, Except.bind]

/-! ### Claim theorems -/

/-- C1 (counterexample): the claim says `parse "Ground Beef, $5.99/lb"`
succeeds; in fact it fails with "Expected string to start with a number",
because `perUnitCountType = Pound` and `perUnitCount = 1` make
`expectsQuantity` false, so the missing leading number is fatal. -/
theorem claim_C1_counterexample :
    parseShoppingListItemStr "Ground Beef, $5.99/lb" =
      Except.error "Expected string to start with a number" := by
  with_unfolding_all rfl

/-- C1 (amended): parsing "Ground Beef, $5.99/lb" extracts
perUnitCountType = Pound, perUnitCount = 1 and priceCentsPerUnit = 599 from
the tail (as the scenario lists), but then — since `expectsQuantity` is
false for Pound with perUnitCount 1 — fails on the missing leading number
with "Expected string to start with a number" instead of defaulting the
count to 1. -/
theorem claim_C1 :
    parseBack ("Ground Beef, $5.99/lb").data =
      Except.ok ⟨("Ground Beef").data, CountType.Pound, 1, 599⟩ ∧
    expectsQuantity ⟨("Ground Beef").data, CountType.Pound, 1, 599⟩ = false ∧
    parseShoppingListItemStr "Ground Beef, $5.99/lb" =
      Except.error "Expected string to start with a number" := by
  refine ⟨by with_unfolding_all rfl, rfl, by with_unfolding_all rfl⟩

/-- C2 (counterexample): the claim says the total is
`priceCentsPerUnit * count` "including when count is fractional"; but the
code truncates the double `count` to `int64_t` first.  The accepted line
"1.5 lb. Beef, $4.00" yields count = 3/2, priceCentsPerUnit = 400, and a
total of 400 — not the 600 the claimed formula gives. -/
theorem claim_C2_counterexample :
    parseShoppingListItemStr "1.5 lb. Beef, $4.00" =
      Except.ok ⟨"Beef", 400, 3 / 2, CountType.Pound, 1, CountType.Quantity⟩ ∧
    getShoppingListItemTotalPrice
      ⟨"Beef", 400, 3 / 2, CountType.Pound, 1, CountType.Quantity⟩ = Except.ok 400 ∧
    (400 : ℚ) * (3 / 2) = 600 ∧
    (400 : ℤ) ≠ 600 := by
  refine ⟨by with_unfolding_all rfl, by with_unfolding_all rfl,
    by with_unfolding_all rfl, by decide⟩

/-- C2 (amended): for every item, `getShoppingListItemTotalPrice` computes
the specification-side formula in which `count` is first truncated toward
zero to an integer: if `countType` or `perUnitCountType` is Quantity, the
total is `trunc (price * (truncCount / perUnitCount))` when
`perUnitCountType` is Quantity with `perUnitCount ≠ 1`, else
`price * truncCount`; otherwise the untruncated count is converted into
`perUnitCountType`'s unit and the total is
`trunc (price * (convertedWeight / perUnitCount))`. -/
theorem claim_C2 (item : ShoppingListItem) :
    getShoppingListItemTotalPrice item = Except.ok (totalPriceCentsSpec item) := by
  rcases item with ⟨n, p, c, ct, puc, put⟩
  cases ct <;> cases put <;>
    simp [getShoppingListItemTotalPrice, totalPriceCentsSpec, convertCountTypeToUnit,
      weightUnitOf] <;> split_ifs <;> rfl

/-- C3 (amended): for every input whose back phase succeeds and whose
leading-number extraction fails: if `expectsQuantity` holds, the count
silently defaults to 1 and parsing continues (any resulting item has
count 1); if `expectsQuantity` does not hold, parse fails with the
extraction's own error — "Expected string to start with a number" when no
leading number is present, but "Too many decimal places in number string"
when a second '.' is met. -/
theorem claim_C3 (s : String) (st : BackState) (e : String)
    (hback : parseBack s.data = Except.ok st)
    (hfail : detectDoubleFromFront st.rest = Except.error e) :
    (expectsQuantity st = true →
      parseShoppingListItemStr s = parseAfterCount st 1 st.rest ∧
      ∀ item, parseShoppingListItemStr s = Except.ok item → item.count = 1) ∧
    (expectsQuantity st = false → parseShoppingListItemStr s = Except.error e) := by
  have hps : parseShoppingListItemStr s = parseFront st := by
    unfold parseShoppingListItemStr
    rw [hback]
    rfl
  rw [hps]
  unfold parseFront
  simp only [hfail]
  constructor
  · intro hq
    rw [if_pos hq]
    exact ⟨rfl, fun item h => parseAfterCount_count h⟩
  · intro hq
    rw [hq]
    simp

/-- C3 (witness): concrete applications of `claim_C3` — for
"Ground Beef, $5.99" the suffix leaves perUnitCountType = Quantity, so
`expectsQuantity` holds and the count defaults to 1; for
"1.2.3 Beef, $1.00/lb" `expectsQuantity` is false and the extraction error
propagates. -/
theorem claim_C3_witness :
    parseShoppingListItemStr "Ground Beef, $5.99" =
      parseAfterCount ⟨("Ground Beef").data, CountType.Quantity, 1, 599⟩ 1
        ("Ground Beef").data ∧
    parseShoppingListItemStr "1.2.3 Beef, $1.00/lb" =
      Except.error "Too many decimal places in number string" :=
  ⟨((claim_C3 "Ground Beef, $5.99" ⟨("Ground Beef").data, CountType.Quantity, 1, 599⟩
      "Expected string to start with a number"
      (by with_unfolding_all rfl) (by with_unfolding_all rfl)).1 rfl).1,
   (claim_C3 "1.2.3 Beef, $1.00/lb" ⟨("1.2.3 Beef").data, CountType.Pound, 1, 100⟩
      "Too many decimal places in number string"
      (by with_unfolding_all rfl) (by with_unfolding_all rfl)).2 rfl⟩

/-- C3 (counterexample): the claim says a failed extraction with
`expectsQuantity` false yields the error "expected string to start with a
number"; on "1.2.3 Beef, $1.00/lb" (back phase succeeds with Pound/1,
`expectsQuantity` false, extraction fails) parse instead fails with
"Too many decimal places in number string". -/
theorem claim_C3_counterexample :
    parseBack ("1.2.3 Beef, $1.00/lb").data =
      Except.ok ⟨("1.2.3 Beef").data, CountType.Pound, 1, 100⟩ ∧
    expectsQuantity ⟨("1.2.3 Beef").data, CountType.Pound, 1, 100⟩ = false ∧
    detectDoubleFromFront ("1.2.3 Beef").data =
      Except.error "Too many decimal places in number string" ∧
    parseShoppingListItemStr "1.2.3 Beef, $1.00/lb" =
      Except.error "Too many decimal places in number string" ∧
    parseShoppingListItemStr "1.2.3 Beef, $1.00/lb" ≠
      Except.error "Expected string to start with a number" := by
  refine ⟨by with_unfolding_all rfl, rfl, by with_unfolding_all rfl,
    by with_unfolding_all rfl, ?_⟩
  intro h
  have hp : parseShoppingListItemStr "1.2.3 Beef, $1.00/lb" =
      Except.error "Too many decimal places in number string" := by
    with_unfolding_all rfl
  rw [hp] at h
  injection h with h2
  exact absurd h2 (by decide)

/-- C4 (amended): the suffix chain is longest-match-first for the lb/lbs
pair (a tail ending "lbs" is assigned Pound via the three-character token),
but not for the g/kg pair: "g" is tried before "kg", so a tail ending "kg"
matches "g", is assigned Gram, and leaves the 'k' unconsumed. -/
theorem claim_C4 (l : List Char) :
    detectPerUnitSuffix (l ++ "lbs".data) = (true, CountType.Pound, l) ∧
    detectPerUnitSuffix (l ++ "kg".data) = (true, CountType.Gram, l ++ ['k']) := by
  constructor
  · have e1 : endsW (l ++ "lbs".data) "lbs".data = true := endsW_append_self l _
    have t1 : (l ++ "lbs".data).take ((l ++ "lbs".data).length - 3) = l :=
      List.take_left' (by simp)
    simp [detectPerUnitSuffix, e1, t1]
  · have glast : (l ++ "kg".data).getLast? = some 'g' := by
      rw [List.getLast?_append_of_ne_nil l (by simp)]; rfl
    have e1 : endsW (l ++ "kg".data) "lbs".data = false :=
      endsW_false_of_last (by simp) (by rw [glast]; decide)
    have e2 : endsW (l ++ "kg".data) "lb".data = false :=
      endsW_false_of_last (by simp) (by rw [glast]; decide)
    have e3 : endsW (l ++ "kg".data) "oz".data = false :=
      endsW_false_of_last (by simp) (by rw [glast]; decide)
    have e4 : endsW (l ++ "kg".data) "g".data = true := by
      have h2 : l ++ "kg".data = (l ++ ['k']) ++ "g".data := by simp
      rw [h2]; exact endsW_append_self _ _
    have t4 : List.take (l.length + 1) (l ++ ['k', 'g']) = l ++ ['k'] := by
      have h2 : l ++ ['k', 'g'] = (l ++ ['k']) ++ ['g'] := by simp
      rw [h2]; exact List.take_left' (by simp)
    simp [detectPerUnitSuffix, e1, e2, e3, e4, t4]

/-- C4 (counterexample): the claim says a tail ending with the longer token
"kg" is assigned Kilogram; in fact the "g" check fires first, assigning
Gram, and the whole line then fails at the slash check because 'k' remains
before the '/'. -/
theorem claim_C4_counterexample :
    detectPerUnitSuffix ("1 kg. Beef, $1.00/kg").data =
      (true, CountType.Gram, ("1 kg. Beef, $1.00/k").data) ∧
    CountType.Gram ≠ CountType.Kilogram ∧
    parseShoppingListItemStr "1 kg. Beef, $1.00/kg" =
      Except.error "Expected slash before price" := by
  refine ⟨by with_unfolding_all rfl, by decide, by with_unfolding_all rfl⟩

/-- C5: parse is deterministic and total-or-error: every input produces
exactly one outcome — an item or an error, never both; equal inputs produce
equal outcomes; and the empty string terminates with an error rather than
crashing or looping (the embedding itself is a total function, which is the
termination argument). -/
theorem claim_C5 :
    (∀ s : String, (∃ item, parseShoppingListItemStr s = Except.ok item) ∨
      (∃ e, parseShoppingListItemStr s = Except.error e)) ∧
    (∀ (s : String) (item : ShoppingListItem) (e : String),
      parseShoppingListItemStr s = Except.ok item →
      parseShoppingListItemStr s = Except.error e → False) ∧
    (∀ s t : String, s = t → parseShoppingListItemStr s = parseShoppingListItemStr t) ∧
    parseShoppingListItemStr "" = Except.error "Expected string to end with a number" := by
  refine ⟨fun s => ?_, fun s item e h1 h2 => ?_, fun s t h => by rw [h], ?_⟩
  · cases h : parseShoppingListItemStr s with
    | ok item => exact Or.inl ⟨item, rfl⟩
    | error e => exact Or.inr ⟨e, rfl⟩
  · rw [h1] at h2; cases h2
  · with_unfolding_all rfl

/-- C5 (witness): `claim_C5` applied at a concrete input. -/
theorem claim_C5_witness :
    parseShoppingListItemStr "3 Apples, $1.00" = parseShoppingListItemStr "3 Apples, $1.00" :=
  claim_C5.2.2.1 "3 Apples, $1.00" "3 Apples, $1.00" rfl

/-- C6 (counterexample): the claim's "regardless of how many fractional
digits there are" fails for runs of 10 or more digits, because
`stringToInt` is `std::atoi`, which returns a 32-bit `int`: on the accepted
line "Beef, $5.9999999999" the ten-nines run (value 9999999999) wraps to
1410065407, so the price is 1410065907 and not
5 * 100 + 9999999999 = 10000000499. -/
theorem claim_C6_counterexample :
    parseShoppingListItemStr "Beef, $5.9999999999" =
      Except.ok ⟨"Beef", 1410065907, 1, CountType.Quantity, 1, CountType.Quantity⟩ ∧
    natVal ['9', '9', '9', '9', '9', '9', '9', '9', '9', '9'] = 9999999999 ∧
    atoiVal ['9', '9', '9', '9', '9', '9', '9', '9', '9', '9'] = 1410065407 ∧
    (1410065907 : ℤ) ≠ 5 * 100 + 9999999999 := by
  refine ⟨by with_unfolding_all rfl, by with_unfolding_all rfl,
    by with_unfolding_all rfl, by decide⟩

/-- C6 (amended): for every accepted line the price is
`whole * 100 + fractional` for the digit runs scanned backward around the
single '.', where each run is converted by `stringToInt` (32-bit `atoi`):
the conversion is the exact digit value — with no rescaling by the number
of fractional digits — whenever the run has at most 9 digits, and wraps to
32 bits for longer runs; the extraction fails when the fractional run is
empty, when the whole run is empty, or when a second '.' is met.
Concretely, "Beef, $5.999" is accepted with price 5 * 100 + 999 = 1499 and
"Beef, $5.9" with 5 * 100 + 9 = 509. -/
theorem claim_C6 :
    (∀ (s : String) (item : ShoppingListItem), parseShoppingListItemStr s = Except.ok item →
      ∃ hasPut put puc v5 w f p v6,
        parseBackPrePrice s.data = Except.ok (hasPut, put, puc, v5) ∧
        detectDecimalFromBack v5 = Except.ok (w, f, p, v6) ∧
        item.priceCentsPerUnit = w * 100 + f) ∧
    (∀ pre w f : List Char, (∀ c ∈ w, c.isDigit = true) → (∀ c ∈ f, c.isDigit = true) →
      w ≠ [] → f ≠ [] →
      (pre = [] ∨ ∃ c, pre.getLast? = some c ∧ c.isDigit = false ∧ c ≠ '.') →
      detectDecimalFromBack (pre ++ w ++ '.' :: f) =
        Except.ok (atoiVal w, atoiVal f, (10 : ℤ) ^ f.length, pre)) ∧
    (∀ l : List Char, (∀ c ∈ l, c.isDigit = true) → l.length ≤ 9 →
      atoiVal l = (natVal l : ℤ)) ∧
    (∀ v : List Char, detectDecimalFromBack (v ++ ['.']) =
      Except.error "Expected string to end with a number") ∧
    (∀ pre f : List Char, (∀ c ∈ f, c.isDigit = true) → f ≠ [] →
      (pre = [] ∨ ∃ c, pre.getLast? = some c ∧ c.isDigit = false ∧ c ≠ '.') →
      detectDecimalFromBack (pre ++ '.' :: f) =
        Except.error "Expected string to end with a number") ∧
    (∀ pre w f : List Char, (∀ c ∈ w, c.isDigit = true) → (∀ c ∈ f, c.isDigit = true) →
      f ≠ [] →
      detectDecimalFromBack (pre ++ '.' :: w ++ '.' :: f) =
        Except.error "Too many decimal places in price string") ∧
    parseShoppingListItemStr "Beef, $5.999" =
      Except.ok ⟨"Beef", 1499, 1, CountType.Quantity, 1, CountType.Quantity⟩ ∧
    parseShoppingListItemStr "Beef, $5.9" =
      Except.ok ⟨"Beef", 509, 1, CountType.Quantity, 1, CountType.Quantity⟩ :=
  ⟨parse_price_pipeline, detectDecimalFromBack_digits, atoiVal_eq_natVal,
    detectDecimalFromBack_no_fractional, detectDecimalFromBack_no_whole,
    detectDecimalFromBack_two_dots,
    by with_unfolding_all rfl, by with_unfolding_all rfl⟩

/-- C6 (witness): `claim_C6` applied at concrete inputs: the accepted line
"Beef, $5.999", a concrete digit decomposition, the exactness of `atoi` on
a three-digit run, and concrete failing views. -/
theorem claim_C6_witness :
    (∃ hasPut put puc v5 w f p v6,
      parseBackPrePrice ("Beef, $5.999").data = Except.ok (hasPut, put, puc, v5) ∧
      detectDecimalFromBack v5 = Except.ok (w, f, p, v6) ∧
      (⟨"Beef", 1499, 1, CountType.Quantity, 1, CountType.Quantity⟩ :
        ShoppingListItem).priceCentsPerUnit = w * 100 + f) ∧
    detectDecimalFromBack (['x'] ++ ['5'] ++ '.' :: ['9', '9', '9']) =
      Except.ok (atoiVal ['5'], atoiVal ['9', '9', '9'],
        (10 : ℤ) ^ (['9', '9', '9'] : List Char).length, ['x']) ∧
    atoiVal ['9', '9', '9'] = (natVal ['9', '9', '9'] : ℤ) ∧
    detectDecimalFromBack (['5'] ++ ['.']) =
      Except.error "Expected string to end with a number" ∧
    detectDecimalFromBack (['x'] ++ '.' :: ['9']) =
      Except.error "Expected string to end with a number" ∧
    detectDecimalFromBack (['x'] ++ '.' :: ['2'] ++ '.' :: ['9']) =
      Except.error "Too many decimal places in price string" :=
  ⟨claim_C6.1 "Beef, $5.999" ⟨"Beef", 1499, 1, CountType.Quantity, 1, CountType.Quantity⟩
      (by with_unfolding_all rfl),
   claim_C6.2.1 ['x'] ['5'] ['9', '9', '9'] (by decide) (by decide) (by decide) (by decide)
      (Or.inr ⟨'x', by decide, by decide, by decide⟩),
   claim_C6.2.2.1 ['9', '9', '9'] (by decide) (by decide),
   claim_C6.2.2.2.1 ['5'],
   claim_C6.2.2.2.2.1 ['x'] ['9'] (by decide) (by decide)
      (Or.inr ⟨'x', by decide, by decide, by decide⟩),
   claim_C6.2.2.2.2.2.1 ['x'] ['2'] ['9'] (by decide) (by decide) (by decide)⟩

/-- C7: `parse "1 lb. Chicken Breasts, $4.99"` succeeds with
name = "Chicken Breasts", count = 1, countType = Pound, perUnitCount = 1,
perUnitCountType = Quantity, priceCentsPerUnit = 499, and the total price
of that item is 499. -/
theorem claim_C7 :
    parseShoppingListItemStr "1 lb. Chicken Breasts, $4.99" =
      Except.ok ⟨"Chicken Breasts", 499, 1, CountType.Pound, 1, CountType.Quantity⟩ ∧
    getShoppingListItemTotalPrice
      ⟨"Chicken Breasts", 499, 1, CountType.Pound, 1, CountType.Quantity⟩ =
      Except.ok 499 := by
  refine ⟨by with_unfolding_all rfl, by with_unfolding_all rfl⟩

/-- C8: `calculateConvertedPerUnit` leaves all three outputs unchanged when
the two units share a System; otherwise the output unit is Kilogram for an
imperial source and Pound for a metric source, and with `perUnitCount > 1`
the price is kept while the count is weight-converted, while with
`perUnitCount ≤ 1` the count is kept and the price is rescaled (and
truncated to integer cents) by the ratio of the original count to the
converted count. -/
theorem claim_C8 (perUnitCount : ℤ) (unit : Unit) (priceCentsPerUnit : ℤ)
    (preferredUnit : Unit) :
    (getUnitSystem unit = getUnitSystem preferredUnit →
      calculateConvertedPerUnit perUnitCount unit priceCentsPerUnit preferredUnit =
        ⟨(perUnitCount : ℚ), unit, priceCentsPerUnit⟩) ∧
    (getUnitSystem unit ≠ getUnitSystem preferredUnit →
      (calculateConvertedPerUnit perUnitCount unit priceCentsPerUnit preferredUnit).perUnitUnit =
        (if getUnitSystem unit = System.Imperial then Unit.Kilogram else Unit.Pound) ∧
      (perUnitCount > 1 →
        calculateConvertedPerUnit perUnitCount unit priceCentsPerUnit preferredUnit =
          ⟨convertWeight (perUnitCount : ℚ) unit
              (if getUnitSystem unit = System.Imperial then Unit.Kilogram else Unit.Pound),
            (if getUnitSystem unit = System.Imperial then Unit.Kilogram else Unit.Pound),
            priceCentsPerUnit⟩) ∧
      (perUnitCount ≤ 1 →
        calculateConvertedPerUnit perUnitCount unit priceCentsPerUnit preferredUnit =
          ⟨(perUnitCount : ℚ),
            (if getUnitSystem unit = System.Imperial then Unit.Kilogram else Unit.Pound),
            truncQ ((priceCentsPerUnit : ℚ) * ((perUnitCount : ℚ) /
              convertWeight (perUnitCount : ℚ) unit
                (if getUnitSystem unit = System.Imperial then Unit.Kilogram
                 else Unit.Pound)))⟩)) := by
  constructor
  · intro hsys
    simp [calculateConvertedPerUnit, hsys]
  · intro hsys
    cases unit <;> cases preferredUnit <;>
      first
      | (exact absurd rfl hsys)
      | (refine ⟨?_, fun h2 => ?_, fun h2 => ?_⟩ <;>
          simp [calculateConvertedPerUnit, getUnitSystem] <;>
          first
          | rfl
          | (split_ifs <;> rfl)
          | (intro h3; exact absurd h3 (by omega)))

/-- C8 (witness): `claim_C8` applied with Pound offered in Kilogram display,
once with perUnitCount 2 (count converted, price kept) and once with
perUnitCount 1 (count kept, price rescaled). -/
theorem claim_C8_witness :
    calculateConvertedPerUnit 2 Unit.Pound 500 Unit.Kilogram =
      ⟨convertWeight ((2 : ℤ) : ℚ) Unit.Pound
          (if getUnitSystem Unit.Pound = System.Imperial then Unit.Kilogram else Unit.Pound),
        (if getUnitSystem Unit.Pound = System.Imperial then Unit.Kilogram else Unit.Pound),
        500⟩ ∧
    calculateConvertedPerUnit 1 Unit.Pound 500 Unit.Kilogram =
      ⟨((1 : ℤ) : ℚ),
        (if getUnitSystem Unit.Pound = System.Imperial then Unit.Kilogram else Unit.Pound),
        truncQ (((500 : ℤ) : ℚ) * (((1 : ℤ) : ℚ) /
          convertWeight ((1 : ℤ) : ℚ) Unit.Pound
            (if getUnitSystem Unit.Pound = System.Imperial then Unit.Kilogram
             else Unit.Pound)))⟩ :=
  ⟨((claim_C8 2 Unit.Pound 500 Unit.Kilogram).2 (by decide)).2.1 (by decide),
   ((claim_C8 1 Unit.Pound 500 Unit.Kilogram).2 (by decide)).2.2 (by decide)⟩

/-- C9 (counterexample): the claim says every parsed item has a non-empty
name; but ", $1.00" parses successfully — the grammar consumes the whole
line, `atof` on the empty remainder yields count 0 — and the name is the
empty string. -/
theorem claim_C9_counterexample :
    parseShoppingListItemStr ", $1.00" =
      Except.ok ⟨"", 100, 0, CountType.Quantity, 1, CountType.Quantity⟩ ∧
    (⟨"", 100, 0, CountType.Quantity, 1, CountType.Quantity⟩ :
      ShoppingListItem).name = "" := by
  refine ⟨by with_unfolding_all rfl, rfl⟩

/-- C9 (amended): the name of a parsed item is the verbatim remaining text,
which can be empty: parse accepts inputs whose text is entirely consumed by
the grammar tokens, returning an item with name = "" (for example
", $1.00/lb"). -/
theorem claim_C9 :
    parseShoppingListItemStr ", $1.00/lb" =
      Except.ok ⟨"", 100, 0, CountType.Quantity, 1, CountType.Pound⟩ ∧
    (⟨"", 100, 0, CountType.Quantity, 1, CountType.Pound⟩ :
      ShoppingListItem).name = "" := by
  refine ⟨by with_unfolding_all rfl, rfl⟩

/-- C10: parse accepts "1 Apples, 0/$1.00", returning an item with
perUnitCount = 0 and perUnitCountType = Quantity; on that item
`getShoppingListItemTotalPrice` takes the branch guarded by
`perUnitCountType = Quantity ∧ perUnitCount ≠ 1`, which evaluates
`count / perUnitCount` with divisor 0 and no guard (in C++ this is a double
division by zero; the `ℚ` model evaluates the same expression, where
division by zero is 0). -/
theorem claim_C10 :
    parseShoppingListItemStr "1 Apples, 0/$1.00" =
      Except.ok ⟨"Apples", 100, 1, CountType.Quantity, 0, CountType.Quantity⟩ ∧
    (⟨"Apples", 100, 1, CountType.Quantity, 0, CountType.Quantity⟩ :
      ShoppingListItem).perUnitCount = 0 ∧
    ((⟨"Apples", 100, 1, CountType.Quantity, 0, CountType.Quantity⟩ :
        ShoppingListItem).perUnitCountType = CountType.Quantity ∨
      (⟨"Apples", 100, 1, CountType.Quantity, 0, CountType.Quantity⟩ :
        ShoppingListItem).countType = CountType.Quantity) ∧
    ((⟨"Apples", 100, 1, CountType.Quantity, 0, CountType.Quantity⟩ :
        ShoppingListItem).perUnitCountType = CountType.Quantity ∧
      (⟨"Apples", 100, 1, CountType.Quantity, 0, CountType.Quantity⟩ :
        ShoppingListItem).perUnitCount ≠ 1) ∧
    getShoppingListItemTotalPrice
      ⟨"Apples", 100, 1, CountType.Quantity, 0, CountType.Quantity⟩ =
      Except.ok (truncQ ((100 : ℚ) * (((truncQ 1 : ℤ) : ℚ) / ((0 : ℤ) : ℚ)))) := by
  refine ⟨by with_unfolding_all rfl, rfl, Or.inl rfl, ⟨rfl, by decide⟩,
    by with_unfolding_all rfl⟩

end ShoppingList
